import Mathlib

/-!
Verification of the resilience framework in
`src/ml-algorithm/src/trading/resilience.py` (CeesarWallet).

Shallow embedding conventions:
* Python `float` times and delays are modelled as `ℚ`.
* Randomness (`random.uniform`) is modelled by explicit parameters: the
  raw draw for the `RANDOM` strategy and the jitter factor are inputs.
* An asynchronous operation is modelled by its observable outcome
  (`OpOutcome`): it returns a value, raises an exception, or times out.
  An operation invoked repeatedly (by the retry loop) is a function from
  the 1-based invocation index to its outcome on that invocation.
* Python exceptions are modelled as `Exc`: an exception class tag
  (`ExcKind`) together with the message string, mirroring how
  `resilience.py` constructs and re-raises them.
* `time.time()` / `datetime.now()` are modelled by an explicit `now : ℚ`
  argument to each state-changing function.
-/

deriving instance DecidableEq for Except

namespace Resilience

/-- `CircuitState` enumeration (`resilience.py` lines 22-26).
`OPEN` is rendered `opened` because `open` is a Lean keyword. -/
inductive CircuitState where
  | closed
  | opened
  | halfOpen
deriving DecidableEq

/-- `RetryStrategy` enumeration (lines 29-34). -/
inductive RetryStrategy where
  | fixed
  | exponential
  | linear
  | random
deriving DecidableEq

/-- `RetryConfig` dataclass (lines 37-45), with the source's defaults. -/
structure RetryConfig where
  max_attempts : Nat := 3
  base_delay : ℚ := 1
  max_delay : ℚ := 60
  strategy : RetryStrategy := .exponential
  jitter : Bool := true
  backoff_multiplier : ℚ := 2
deriving DecidableEq

/-- `CircuitBreakerConfig` dataclass (lines 48-54). -/
structure CircuitBreakerConfig where
  failure_threshold : Nat := 5
  recovery_timeout : ℚ := 60
  success_threshold : Nat := 3
  timeout : ℚ := 30
deriving DecidableEq

/-- Exception classes raised or passed through by the module: the three
`CircuitBreakerException` variants (lines 304-316), `TimeoutException`
(line 441), and arbitrary exceptions raised by the wrapped operation. -/
inductive ExcKind where
  | circuitBreakerOpen
  | circuitBreakerTimeout
  | circuitBreakerGeneric
  | timeoutError
  | underlying
deriving DecidableEq

/-- A Python exception: its class tag and its message (`str(e)`). -/
structure Exc where
  kind : ExcKind
  msg : String
deriving DecidableEq

/-- Observable outcome of one invocation of a wrapped operation:
a returned value, an exception of its own, or a timeout
(`asyncio.TimeoutError` from `asyncio.wait_for`). -/
inductive OpOutcome (A : Type) where
  | ok (a : A)
  | err (e : Exc)
  | timeout
deriving DecidableEq

/-- Strategy formula of `RetryManager.calculate_delay` (lines 81-93),
before jitter and clamping.  `randomDraw` stands for the value
`random.uniform(base_delay, base_delay * attempt)` drawn in the `RANDOM`
branch. -/
def rawDelay (cfg : RetryConfig) (attempt : ℤ) (randomDraw : ℚ) : ℚ :=
  match cfg.strategy with
  | .fixed => cfg.base_delay
  | .exponential => cfg.base_delay * cfg.backoff_multiplier ^ (attempt - 1)
  | .linear => cfg.base_delay * (attempt : ℚ)
  | .random => randomDraw

/-- `RetryManager.calculate_delay` (lines 76-101): early return `0.0` for
`attempt <= 0`, then the strategy formula, the optional jitter
multiplication (`jitterFactor` stands for `random.uniform(0.5, 1.5)`),
and the clamp `min(delay, max_delay)`. -/
def calculate_delay (cfg : RetryConfig) (attempt : ℤ)
    (randomDraw jitterFactor : ℚ) : ℚ :=
  if attempt ≤ 0 then 0
  else
    let delay := rawDelay cfg attempt randomDraw
    let delay := if cfg.jitter then delay * jitterFactor else delay
    min delay cfg.max_delay

/-- Recursive core of `RetryManager.execute_with_retry` (lines 103-162),
with all exceptions retryable (the source's default `exceptions=None`
becomes `[Exception]`, which catches every outcome we model as an error).
`attempt` is the 1-based index of the next invocation, the second
argument is the number of attempts still allowed, `last` is
`last_exception`.  Returns the surfaced outcome (`none` models the
`raise last_exception` with `last_exception = None` that the source
performs when `max_attempts = 0`) together with the number of times the
operation was invoked. -/
def retryGo {E A : Type} (op : Nat → Except E A) :
    Nat → Nat → Option E → Option (Except E A) × Nat
  | _, 0, last => (last.map Except.error, 0)
  | attempt, r + 1, _ =>
    match op attempt with
    | .ok a => (some (.ok a), 1)
    | .error e =>
      let rest := retryGo op (attempt + 1) r (some e)
      (rest.1, rest.2 + 1)

/-- `RetryManager.execute_with_retry` (lines 103-162): the loop
`for attempt in range(1, max_attempts + 1)`. -/
def execute_with_retry {E A : Type} (maxAttempts : Nat)
    (op : Nat → Except E A) : Option (Except E A) × Nat :=
  retryGo op 1 maxAttempts none

/-- `CircuitBreaker` mutable state (lines 165-179).  The `threading.Lock`
is not modelled: all state changes are sequentialised.  Times are `ℚ`. -/
structure CircuitBreaker where
  name : String
  config : CircuitBreakerConfig
  state : CircuitState
  failure_count : Nat
  success_count : Nat
  last_failure_time : Option ℚ
  last_success_time : Option ℚ
  total_requests : Nat
  total_failures : Nat
  total_successes : Nat
deriving DecidableEq

/-- `CircuitBreaker.__init__` (lines 168-179). -/
def CircuitBreaker.init (name : String) (config : CircuitBreakerConfig) :
    CircuitBreaker :=
  { name := name
    config := config
    state := .closed
    failure_count := 0
    success_count := 0
    last_failure_time := none
    last_success_time := none
    total_requests := 0
    total_failures := 0
    total_successes := 0 }

/-- `CircuitBreaker._should_attempt_reset` (lines 203-215), with
`datetime.now(timezone.utc)` replaced by the explicit `now`. -/
def CircuitBreaker.shouldAttemptReset (cb : CircuitBreaker) (now : ℚ) :
    Bool :=
  if cb.state ≠ .opened then false
  else
    match cb.last_failure_time with
    | none => true
    | some t => decide (cb.config.recovery_timeout ≤ now - t)

/-- `CircuitBreaker._record_success` (lines 217-235). -/
def CircuitBreaker.recordSuccess (cb : CircuitBreaker) (now : ℚ) :
    CircuitBreaker :=
  let cb := { cb with
    total_requests := cb.total_requests + 1
    total_successes := cb.total_successes + 1
    last_success_time := some now }
  if cb.state = .halfOpen then
    let sc := cb.success_count + 1
    if cb.config.success_threshold ≤ sc then
      { cb with state := .closed, failure_count := 0, success_count := 0 }
    else
      { cb with success_count := sc }
  else
    { cb with failure_count := 0 }

/-- `CircuitBreaker._record_failure` (lines 237-261). -/
def CircuitBreaker.recordFailure (cb : CircuitBreaker) (now : ℚ) :
    CircuitBreaker :=
  let cb := { cb with
    total_requests := cb.total_requests + 1
    total_failures := cb.total_failures + 1
    last_failure_time := some now }
  if cb.state = .halfOpen then
    { cb with state := .opened, success_count := 0 }
  else
    let fc := cb.failure_count + 1
    if cb.config.failure_threshold ≤ fc then
      { cb with failure_count := fc, state := .opened }
    else
      { cb with failure_count := fc }

/-- Admission phase of `CircuitBreaker.call` (lines 265-277): `none`
means the call is rejected with `CircuitBreakerOpenException`; `some cb`
gives the breaker state under which the operation then executes
(`OPEN` with an elapsed recovery timeout moves to `HALF_OPEN` with
`success_count = 0`). -/
def CircuitBreaker.gate (cb : CircuitBreaker) (now : ℚ) :
    Option CircuitBreaker :=
  if cb.state = .opened then
    if ¬ cb.shouldAttemptReset now then none
    else some { cb with state := .halfOpen, success_count := 0 }
  else
    some cb

/-- Result of one `CircuitBreaker.call`: the value returned or exception
raised, the breaker state afterwards, and whether the wrapped operation
was actually invoked. -/
structure CallStep (A : Type) where
  result : Except Exc A
  breaker : CircuitBreaker
  invoked : Bool
deriving DecidableEq

/-- `CircuitBreaker.call` (lines 263-301).  On rejection the breaker is
unchanged and the operation is not invoked; otherwise the operation's
outcome is recorded and, on failure, re-raised wrapped: a timeout as
`CircuitBreakerTimeoutException`, any other exception `e` as
`CircuitBreakerException` with message
`"Circuit breaker <name> failure: " + str(e)`. -/
def CircuitBreaker.call {A : Type} (cb : CircuitBreaker) (now : ℚ)
    (op : OpOutcome A) : CallStep A :=
  match cb.gate now with
  | none =>
    ⟨.error ⟨.circuitBreakerOpen, "Circuit breaker " ++ cb.name ++ " is open"⟩,
      cb, false⟩
  | some cb' =>
    match op with
    | .ok a => ⟨.ok a, cb'.recordSuccess now, true⟩
    | .timeout =>
      ⟨.error ⟨.circuitBreakerTimeout, "Circuit breaker " ++ cb.name ++ " timeout"⟩,
        cb'.recordFailure now, true⟩
    | .err e =>
      ⟨.error ⟨.circuitBreakerGeneric,
          "Circuit breaker " ++ cb.name ++ " failure: " ++ e.msg⟩,
        cb'.recordFailure now, true⟩

/-- `k` consecutive failing calls through a breaker, the `i`-th (0-based)
made at time `times i` with the operation raising `e` each time. -/
def failTimes (cb : CircuitBreaker) (times : Nat → ℚ) (e : Exc) :
    Nat → CircuitBreaker
  | 0 => cb
  | k + 1 =>
    ((failTimes cb times e k).call (times k) (OpOutcome.err (A := Unit) e)).breaker

/-- `RateLimiter` (lines 319-334): `requests` is the deque of granted
request timestamps, oldest first.  The source's `RateLimiter` carries no
name. -/
structure RateLimiter where
  max_requests : Nat
  time_window : ℚ
  requests : List ℚ
deriving DecidableEq

/-- `RateLimiter.__init__` (lines 322-326): empty deque. -/
def RateLimiter.init (max_requests : Nat) (time_window : ℚ) : RateLimiter :=
  { max_requests := max_requests, time_window := time_window, requests := [] }

/-- The eviction loop of `RateLimiter.acquire` (lines 342-343):
`while requests and requests[0] <= now - time_window: popleft()`.
It pops from the front until the head is young enough. -/
def dropOld (now window : ℚ) : List ℚ → List ℚ
  | [] => []
  | t :: rest =>
    if t ≤ now - window then dropOld now window rest else t :: rest

/-- `RateLimiter.acquire` (lines 336-350) at explicit time `now`:
evict old timestamps, then grant (appending `now`) iff fewer than
`max_requests` remain. -/
def RateLimiter.acquire (rl : RateLimiter) (now : ℚ) : Bool × RateLimiter :=
  let reqs := dropOld now rl.time_window rl.requests
  if reqs.length < rl.max_requests then
    (true, { rl with requests := reqs ++ [now] })
  else
    (false, { rl with requests := reqs })

/-- Run a sequence of `acquire` calls at the given times; final state. -/
def runLimiter (rl : RateLimiter) : List ℚ → RateLimiter
  | [] => rl
  | t :: ts => runLimiter (rl.acquire t).2 ts

/-- The granted (acquire-returned-true) timestamps of a sequence of
`acquire` calls, in order. -/
def grantedTimes (rl : RateLimiter) : List ℚ → List ℚ
  | [] => []
  | t :: ts =>
    let s := rl.acquire t
    if s.1 then t :: grantedTimes s.2 ts else grantedTimes s.2 ts

/-- `TimeoutManager` (lines 399-406). -/
structure TimeoutManager where
  default_timeout : ℚ := 30

/-- The `timeout = timeout or self.default_timeout` resolution on line
416: Python `or` falls back to the default when `timeout` is `None` or
the falsy `0.0`. -/
def TimeoutManager.resolve (tm : TimeoutManager) (timeout : Option ℚ) : ℚ :=
  match timeout with
  | none => tm.default_timeout
  | some t => if t = 0 then tm.default_timeout else t

/-- `TimeoutManager.execute_with_timeout` (lines 408-438): the value is
returned, the operation's own exception propagates unchanged, and a
deadline expiry is raised as `TimeoutException`. -/
def TimeoutManager.execute_with_timeout {A : Type} (tm : TimeoutManager)
    (fname : String) (timeout : Option ℚ) (op : OpOutcome A) : Except Exc A :=
  match op with
  | .ok a => .ok a
  | .err e => .error e
  | .timeout =>
    .error ⟨.timeoutError,
      "Function " ++ fname ++ " timed out after "
        ++ toString (tm.resolve timeout) ++ " seconds"⟩

/-- `Bulkhead` (lines 358-371), registry-relevant fields only: the
`asyncio.Semaphore` and the concurrent acquire/release protocol are
blocking-concurrency constructs outside this sequential embedding. -/
structure Bulkhead where
  name : String
  max_concurrent : Nat
  active_operations : Nat
deriving DecidableEq

/-- `Bulkhead.__init__` (lines 361-366). -/
def Bulkhead.init (name : String) (max_concurrent : Nat) : Bulkhead :=
  { name := name, max_concurrent := max_concurrent, active_operations := 0 }

/-- `ResilienceManager` (lines 446-455): the three name-keyed registries
(Python dicts, modelled as lookup functions) and the timeout manager. -/
structure ResilienceManager where
  circuit_breakers : String → Option CircuitBreaker
  rate_limiters : String → Option RateLimiter
  bulkheads : String → Option Bulkhead
  timeout_manager : TimeoutManager

/-- `ResilienceManager.__init__` (lines 449-455): empty registries. -/
def ResilienceManager.init : ResilienceManager :=
  { circuit_breakers := fun _ => none
    rate_limiters := fun _ => none
    bulkheads := fun _ => none
    timeout_manager := {} }

/-- `ResilienceManager.create_circuit_breaker` (lines 457-465):
unconditionally constructs a fresh breaker and stores it under `name`
(`self.circuit_breakers[name] = circuit_breaker`), returning it. -/
def ResilienceManager.create_circuit_breaker (m : ResilienceManager)
    (name : String) (config : CircuitBreakerConfig) :
    CircuitBreaker × ResilienceManager :=
  let circuit_breaker := CircuitBreaker.init name config
  (circuit_breaker,
    { m with circuit_breakers :=
        fun n => if n = name then some circuit_breaker else m.circuit_breakers n })

/-- `ResilienceManager.create_rate_limiter` (lines 467-476). -/
def ResilienceManager.create_rate_limiter (m : ResilienceManager)
    (name : String) (max_requests : Nat) (time_window : ℚ) :
    RateLimiter × ResilienceManager :=
  let rate_limiter := RateLimiter.init max_requests time_window
  (rate_limiter,
    { m with rate_limiters :=
        fun n => if n = name then some rate_limiter else m.rate_limiters n })

/-- `ResilienceManager.create_bulkhead` (lines 478-486). -/
def ResilienceManager.create_bulkhead (m : ResilienceManager)
    (name : String) (max_concurrent : Nat) :
    Bulkhead × ResilienceManager :=
  let bulkhead := Bulkhead.init name max_concurrent
  (bulkhead,
    { m with bulkheads :=
        fun n => if n = name then some bulkhead else m.bulkheads n })

/-- `ResilienceManager.get_circuit_breaker` (lines 488-490):
`dict.get(name)`. -/
def ResilienceManager.get_circuit_breaker (m : ResilienceManager)
    (name : String) : Option CircuitBreaker :=
  m.circuit_breakers name

/-- `ResilienceManager.get_rate_limiter` (lines 492-494). -/
def ResilienceManager.get_rate_limiter (m : ResilienceManager)
    (name : String) : Option RateLimiter :=
  m.rate_limiters name

/-- `ResilienceManager.get_bulkhead` (lines 496-498). -/
def ResilienceManager.get_bulkhead (m : ResilienceManager)
    (name : String) : Option Bulkhead :=
  m.bulkheads name

/-- Outcome of the composed execution: surfaced outcome (`none` models
the `raise None` reached when retry is configured with
`max_attempts = 0`), the number of invocations of the wrapped
operation, and the manager afterwards (the named breaker's mutated
state written back). -/
structure ExecOutcome (A : Type) where
  result : Option (Except Exc A)
  invocations : Nat
  manager : ResilienceManager

/-- `ResilienceManager._execute_with_circuit_breaker_and_retry`
(lines 540-564).  Python truthiness of `circuit_breaker_name` (`None`
or `""` are falsy) is modelled by the `Option` plus the emptiness test.
If a truthy name resolves to a registered breaker, the call goes
through the breaker alone and returns; otherwise, with a retry config,
the timeout-bounded operation is run under `execute_with_retry`, and
with no retry config it is run once under the timeout manager. -/
def ResilienceManager.execute_with_circuit_breaker_and_retry
    {A : Type} (m : ResilienceManager) (op : Nat → OpOutcome A)
    (fname : String) (circuit_breaker_name : Option String)
    (timeout : Option ℚ) (retry_config : Option RetryConfig)
    (now : ℚ) : ExecOutcome A :=
  let fallback : ExecOutcome A :=
    match retry_config with
    | some rcfg =>
      let r := execute_with_retry rcfg.max_attempts
        (fun i => m.timeout_manager.execute_with_timeout fname timeout (op i))
      ⟨r.1, r.2, m⟩
    | none =>
      ⟨some (m.timeout_manager.execute_with_timeout fname timeout (op 1)), 1, m⟩
  match circuit_breaker_name with
  | some nm =>
    if nm = "" then fallback
    else
      match m.get_circuit_breaker nm with
      | some cb =>
        let s := cb.call now (op 1)
        ⟨some s.result, 1,
          { m with circuit_breakers :=
              fun n => if n = nm then some s.breaker else m.circuit_breakers n }⟩
      | none => fallback
  | none => fallback

/-- `ResilienceManager.execute_with_resilience` (lines 500-538) for
executions with no rate limiter and no bulkhead selected: the source
then tail-calls `_execute_with_circuit_breaker_and_retry` directly (the
surrounding `try/except` only logs and re-raises).  The rate-limiter
wait loop and the bulkhead semaphore are blocking-concurrency
constructs outside this sequential embedding. -/
def ResilienceManager.execute_with_resilience {A : Type}
    (m : ResilienceManager) (op : Nat → OpOutcome A) (fname : String)
    (circuit_breaker_name : Option String) (timeout : Option ℚ)
    (retry_config : Option RetryConfig) (now : ℚ) : ExecOutcome A :=
  m.execute_with_circuit_breaker_and_retry op fname circuit_breaker_name
    timeout retry_config now

/-! ## Retry manager: claims C7, C9, C10 -/

lemma retryGo_succ {E A : Type} (op : Nat → Except E A) (attempt r : Nat)
    (last : Option E) :
    retryGo op attempt (r + 1) last =
      match op attempt with
      | .ok a => (some (.ok a), 1)
      | .error e =>
        ((retryGo op (attempt + 1) r (some e)).1,
         (retryGo op (attempt + 1) r (some e)).2 + 1) := rfl

lemma retryGo_all_fail {E A : Type} (op : Nat → Except E A)
    (hfail : ∀ i, ∃ e, op i = .error e) :
    ∀ (r attempt : Nat) (last : Option E),
      retryGo op attempt (r + 1) last = (some (op (attempt + r)), r + 1) := by
  intro r
  induction r with
  | zero =>
    intro attempt last
    obtain ⟨e, he⟩ := hfail attempt
    simp [retryGo_succ, retryGo, he]
  | succ n ih =>
    intro attempt last
    obtain ⟨e, he⟩ := hfail attempt
    have harith : attempt + 1 + n = attempt + (n + 1) := by omega
    rw [retryGo_succ, he]
    show ((retryGo op (attempt + 1) (n + 1) (some e)).1,
        (retryGo op (attempt + 1) (n + 1) (some e)).2 + 1) = _
    rw [ih (attempt + 1) (some e), harith]

/-- C7: for every `maxAttempts = N ≥ 1` and every operation failing with a
retryable error on every invocation, `execute_with_retry` invokes the
operation exactly `N` times and raises the error produced by the `N`-th
(last) attempt; it never retries beyond `maxAttempts`. -/
theorem retry_exhaustion {E A : Type} (N : Nat) (op : Nat → Except E A)
    (hN : 1 ≤ N) (hfail : ∀ i, ∃ e, op i = .error e) :
    execute_with_retry N op = (some (op N), N) := by
  obtain ⟨M, rfl⟩ : ∃ M, N = M + 1 := ⟨N - 1, by omega⟩
  rw [execute_with_retry, retryGo_all_fail op hfail M 1 none, Nat.add_comm 1 M]

/-- Witness for C7: three attempts on an always-failing operation. -/
theorem retry_exhaustion_witness :
    execute_with_retry 3 (fun _ => (Except.error 7 : Except Nat Nat)) =
      (some (.error 7), 3) :=
  retry_exhaustion 3 (fun _ => (Except.error 7 : Except Nat Nat))
    (by norm_num) (fun _ => ⟨7, rfl⟩)

/-- C9: for the `EXPONENTIAL` strategy with `backoff_multiplier > 1` and
`base_delay ≥ 0`, the computed delay before jitter is non-decreasing in
the attempt number (for attempts ≥ 1), and the value returned by
`calculate_delay` is `≤ max_delay` after clamping. -/
theorem exponential_delay_monotone_and_clamped (cfg : RetryConfig)
    (hs : cfg.strategy = .exponential) (hb : 1 < cfg.backoff_multiplier)
    (hbase : 0 ≤ cfg.base_delay) :
    (∀ (a a' : ℤ) (r : ℚ), 1 ≤ a → a ≤ a' →
      rawDelay cfg a r ≤ rawDelay cfg a' r) ∧
    (∀ (a : ℤ) (r j : ℚ), 1 ≤ a →
      calculate_delay cfg a r j ≤ cfg.max_delay) := by
  constructor
  · intro a a' r _ haa'
    simp only [rawDelay, hs]
    exact mul_le_mul_of_nonneg_left
      (zpow_le_zpow_right₀ hb.le (by omega)) hbase
  · intro a r j ha
    have h : ¬ a ≤ 0 := by omega
    simp only [calculate_delay, h, if_false]
    exact min_le_right _ _

/-- Witness for C9: the source's default config (exponential, `b = 2`,
`base = 1`, `max = 60`) at attempts 1 and 2. -/
theorem exponential_delay_monotone_and_clamped_witness :
    rawDelay {} 1 0 ≤ rawDelay {} 2 0 ∧
      calculate_delay {} 2 0 1 ≤ ({} : RetryConfig).max_delay := by
  have h := exponential_delay_monotone_and_clamped {} rfl
    (by norm_num) (by norm_num)
  exact ⟨h.1 1 2 0 (by norm_num) (by norm_num), h.2 2 0 1 (by norm_num)⟩

/-- C10: for every attempt number ≤ 0 and every retry configuration,
`calculate_delay` returns exactly `0.0`, without applying the strategy
formula, jitter, or the `max_delay` clamp. -/
theorem calculate_delay_nonpositive_attempt (cfg : RetryConfig)
    (attempt : ℤ) (randomDraw jitterFactor : ℚ) (h : attempt ≤ 0) :
    calculate_delay cfg attempt randomDraw jitterFactor = 0 := by
  simp [calculate_delay, h]

/-- Witness for C10: attempt 0 with a config whose `max_delay` is
negative, so the result `0` could not have passed through the clamp. -/
theorem calculate_delay_nonpositive_attempt_witness :
    calculate_delay { max_delay := -1 } 0 5 7 = 0 :=
  calculate_delay_nonpositive_attempt { max_delay := -1 } 0 5 7 le_rfl

/-! ## Circuit breaker: claims C2, C3, C5, C6 -/

lemma gate_not_opened (cb : CircuitBreaker) (now : ℚ)
    (h : cb.state ≠ .opened) : cb.gate now = some cb := by
  simp [CircuitBreaker.gate, h]

lemma shouldAttemptReset_false (cb : CircuitBreaker) (now t0 : ℚ)
    (hst : cb.state = .opened) (hlf : cb.last_failure_time = some t0)
    (h : now - t0 < cb.config.recovery_timeout) :
    cb.shouldAttemptReset now = false := by
  simp only [CircuitBreaker.shouldAttemptReset, hst, hlf]
  simp [not_le.mpr h]

lemma shouldAttemptReset_true (cb : CircuitBreaker) (now t0 : ℚ)
    (hst : cb.state = .opened) (hlf : cb.last_failure_time = some t0)
    (h : cb.config.recovery_timeout ≤ now - t0) :
    cb.shouldAttemptReset now = true := by
  simp only [CircuitBreaker.shouldAttemptReset, hst, hlf]
  simp [h]

lemma gate_rejected (cb : CircuitBreaker) (now : ℚ)
    (hst : cb.state = .opened) (hres : cb.shouldAttemptReset now = false) :
    cb.gate now = none := by
  simp [CircuitBreaker.gate, hst, hres]

lemma gate_reset (cb : CircuitBreaker) (now : ℚ)
    (hst : cb.state = .opened) (hres : cb.shouldAttemptReset now = true) :
    cb.gate now = some { cb with state := .halfOpen, success_count := 0 } := by
  simp [CircuitBreaker.gate, hst, hres]

lemma call_rejected {A : Type} (cb : CircuitBreaker) (now : ℚ)
    (op : OpOutcome A) (hst : cb.state = .opened)
    (hres : cb.shouldAttemptReset now = false) :
    cb.call now op =
      ⟨.error ⟨.circuitBreakerOpen,
          "Circuit breaker " ++ cb.name ++ " is open"⟩, cb, false⟩ := by
  simp [CircuitBreaker.call, gate_rejected cb now hst hres]

lemma call_invoked_of_gate_some {A : Type} (cb cb' : CircuitBreaker)
    (now : ℚ) (op : OpOutcome A) (h : cb.gate now = some cb') :
    (cb.call now op).invoked = true := by
  cases op <;> simp [CircuitBreaker.call, h]

lemma call_err_not_opened {A : Type} (cb : CircuitBreaker) (now : ℚ)
    (e : Exc) (h : cb.state ≠ .opened) :
    cb.call now (OpOutcome.err (A := A) e) =
      ⟨.error ⟨.circuitBreakerGeneric,
          "Circuit breaker " ++ cb.name ++ " failure: " ++ e.msg⟩,
        cb.recordFailure now, true⟩ := by
  simp [CircuitBreaker.call, gate_not_opened cb now h]

lemma recordFailure_closed (cb : CircuitBreaker) (now : ℚ)
    (h : cb.state = .closed) :
    cb.recordFailure now =
      { cb with
        total_requests := cb.total_requests + 1
        total_failures := cb.total_failures + 1
        last_failure_time := some now
        failure_count := cb.failure_count + 1
        state := if cb.config.failure_threshold ≤ cb.failure_count + 1
          then .opened else .closed } := by
  rw [CircuitBreaker.recordFailure]
  simp only [h]
  split
  · simp_all
  · split <;> simp_all

lemma failTimes_spec (name : String) (cfg : CircuitBreakerConfig)
    (times : Nat → ℚ) (e : Exc) :
    ∀ k, k ≤ cfg.failure_threshold →
      (failTimes (CircuitBreaker.init name cfg) times e k).config = cfg ∧
      (failTimes (CircuitBreaker.init name cfg) times e k).name = name ∧
      (failTimes (CircuitBreaker.init name cfg) times e k).failure_count = k ∧
      (failTimes (CircuitBreaker.init name cfg) times e k).state =
        (if k = cfg.failure_threshold ∧ 0 < k then .opened else .closed) ∧
      (0 < k →
        (failTimes (CircuitBreaker.init name cfg) times e k).last_failure_time
          = some (times (k - 1))) := by
  intro k
  induction k with
  | zero =>
    intro _
    refine ⟨rfl, rfl, rfl, ?_, by omega⟩
    simp [failTimes, CircuitBreaker.init]
  | succ n ih =>
    intro hk
    obtain ⟨hcfg, hname, hfc, hst, _⟩ := ih (by omega)
    have hclosed : (failTimes (CircuitBreaker.init name cfg) times e n).state
        = .closed := by
      rw [hst]
      have : ¬ (n = cfg.failure_threshold ∧ 0 < n) := by omega
      simp [this]
    have hne : (failTimes (CircuitBreaker.init name cfg) times e n).state
        ≠ .opened := by rw [hclosed]; simp
    show _ ∧ _ ∧ _ ∧ _ ∧ _
    rw [failTimes, call_err_not_opened _ _ _ hne]
    simp only [recordFailure_closed _ _ hclosed]
    refine ⟨hcfg, hname, by simp [hfc], ?_, fun _ => by simp⟩
    simp only [hcfg, hfc]
    by_cases hth : cfg.failure_threshold ≤ n + 1
    · have h1 : n + 1 = cfg.failure_threshold ∧ 0 < n + 1 := by omega
      have h2 : 0 < cfg.failure_threshold := by omega
      simp [hth, h1, h2]
    · have h1 : ¬ (n + 1 = cfg.failure_threshold ∧ 0 < n + 1) := by omega
      have h2 : n + 1 ≠ cfg.failure_threshold := by omega
      simp [hth, h1, h2]

/-- C2: for every `failure_threshold = N ≥ 1`, starting from a freshly
initialised (Closed) breaker, `N` consecutive failing calls leave the
state `OPEN`, and the `(N+1)`-th call, made before `recovery_timeout`
has elapsed since the last failure, raises the circuit-open error
without invoking the operation (breaker unchanged). -/
theorem circuit_breaker_threshold (name : String)
    (cfg : CircuitBreakerConfig) (times : Nat → ℚ) (e : Exc) (t : ℚ)
    {A : Type} (op : OpOutcome A)
    (hN : 1 ≤ cfg.failure_threshold)
    (ht : t - times (cfg.failure_threshold - 1) < cfg.recovery_timeout) :
    (failTimes (CircuitBreaker.init name cfg) times e
        cfg.failure_threshold).state = .opened ∧
    ((failTimes (CircuitBreaker.init name cfg) times e
        cfg.failure_threshold).call t op).invoked = false ∧
    ((failTimes (CircuitBreaker.init name cfg) times e
        cfg.failure_threshold).call t op).breaker =
      failTimes (CircuitBreaker.init name cfg) times e
        cfg.failure_threshold ∧
    ((failTimes (CircuitBreaker.init name cfg) times e
        cfg.failure_threshold).call t op).result =
      .error ⟨.circuitBreakerOpen,
        "Circuit breaker " ++ name ++ " is open"⟩ := by
  obtain ⟨hcfg, hname, _, hst, hlf⟩ :=
    failTimes_spec name cfg times e cfg.failure_threshold le_rfl
  have hopened : (failTimes (CircuitBreaker.init name cfg) times e
      cfg.failure_threshold).state = .opened := by
    rw [hst]; simp [show cfg.failure_threshold = cfg.failure_threshold ∧
      0 < cfg.failure_threshold from ⟨rfl, by omega⟩]
  have hres := shouldAttemptReset_false _ t
    (times (cfg.failure_threshold - 1)) hopened (hlf (by omega))
    (by rw [hcfg]; exact ht)
  rw [call_rejected _ _ op hopened hres]
  exact ⟨hopened, rfl, rfl, by rw [hname]⟩

/-- Witness for C2: threshold 2, two failures at time 0, third call at
time 1 with a 60-second recovery timeout. -/
theorem circuit_breaker_threshold_witness :
    (failTimes (CircuitBreaker.init "cb" ⟨2, 60, 3, 30⟩) (fun _ => 0)
        ⟨.underlying, "boom"⟩ 2).state = .opened ∧
    ((failTimes (CircuitBreaker.init "cb" ⟨2, 60, 3, 30⟩) (fun _ => 0)
        ⟨.underlying, "boom"⟩ 2).call 1 (OpOutcome.ok (0 : Nat))).invoked
      = false ∧
    ((failTimes (CircuitBreaker.init "cb" ⟨2, 60, 3, 30⟩) (fun _ => 0)
        ⟨.underlying, "boom"⟩ 2).call 1 (OpOutcome.ok (0 : Nat))).breaker =
      failTimes (CircuitBreaker.init "cb" ⟨2, 60, 3, 30⟩) (fun _ => 0)
        ⟨.underlying, "boom"⟩ 2 ∧
    ((failTimes (CircuitBreaker.init "cb" ⟨2, 60, 3, 30⟩) (fun _ => 0)
        ⟨.underlying, "boom"⟩ 2).call 1 (OpOutcome.ok (0 : Nat))).result =
      .error ⟨.circuitBreakerOpen, "Circuit breaker " ++ "cb" ++ " is open"⟩ :=
  circuit_breaker_threshold "cb" ⟨2, 60, 3, 30⟩ (fun _ => 0)
    ⟨.underlying, "boom"⟩ 1 (OpOutcome.ok (0 : Nat)) (by norm_num)
    (by norm_num)

/-- C6: for a breaker that is `OPEN` with `last_failure_time = t0`,
every call before `t0 + recovery_timeout` is rejected with the
circuit-open error (operation not invoked, breaker unchanged), and the
first call at or after `t0 + recovery_timeout` is admitted: the breaker
moves to `HALF_OPEN` with `success_count` reset to `0` and the
operation is invoked. -/
theorem circuit_breaker_recovery {A : Type} (cb : CircuitBreaker)
    (t0 t t' : ℚ) (op op' : OpOutcome A)
    (hst : cb.state = .opened) (hlf : cb.last_failure_time = some t0)
    (hbefore : t - t0 < cb.config.recovery_timeout)
    (hafter : cb.config.recovery_timeout ≤ t' - t0) :
    (cb.call t op).invoked = false ∧
    (cb.call t op).breaker = cb ∧
    (cb.call t op).result =
      .error ⟨.circuitBreakerOpen,
        "Circuit breaker " ++ cb.name ++ " is open"⟩ ∧
    cb.gate t' = some { cb with state := .halfOpen, success_count := 0 } ∧
    (cb.call t' op').invoked = true := by
  have hres := shouldAttemptReset_false cb t t0 hst hlf hbefore
  have hres' := shouldAttemptReset_true cb t' t0 hst hlf hafter
  have hg := gate_reset cb t' hst hres'
  rw [call_rejected cb t op hst hres]
  exact ⟨rfl, rfl, rfl, hg, call_invoked_of_gate_some cb _ t' op' hg⟩

/-- A concrete breaker that is `OPEN` since time 0, used by the C6
witness: threshold 1, recovery timeout 60. -/
def openBreakerExample : CircuitBreaker :=
  { name := "cb"
    config := ⟨1, 60, 3, 30⟩
    state := .opened
    failure_count := 1
    success_count := 0
    last_failure_time := some 0
    last_success_time := none
    total_requests := 1
    total_failures := 1
    total_successes := 0 }

/-- Witness for C6: open breaker since time 0 with a 60-second recovery
timeout; a call at 59 is rejected, a call at 60 is admitted. -/
theorem circuit_breaker_recovery_witness :
    (openBreakerExample.call 59 (OpOutcome.ok (0 : Nat))).invoked = false ∧
    (openBreakerExample.call 59 (OpOutcome.ok (0 : Nat))).breaker =
      openBreakerExample ∧
    (openBreakerExample.call 59 (OpOutcome.ok (0 : Nat))).result =
      .error ⟨.circuitBreakerOpen,
        "Circuit breaker " ++ openBreakerExample.name ++ " is open"⟩ ∧
    openBreakerExample.gate 60 =
      some { openBreakerExample with
        state := .halfOpen, success_count := 0 } ∧
    (openBreakerExample.call 60 (OpOutcome.ok (0 : Nat))).invoked = true :=
  circuit_breaker_recovery openBreakerExample 0 59 60
    (OpOutcome.ok 0) (OpOutcome.ok 0) rfl rfl
    (by norm_num [openBreakerExample]) (by norm_num [openBreakerExample])

lemma recordSuccess_totals (cb : CircuitBreaker) (now : ℚ) :
    (cb.recordSuccess now).total_requests = cb.total_requests + 1 ∧
    (cb.recordSuccess now).total_successes = cb.total_successes + 1 ∧
    (cb.recordSuccess now).total_failures = cb.total_failures := by
  rw [CircuitBreaker.recordSuccess]
  split
  · dsimp only
    split <;> simp
  · simp

lemma recordFailure_totals (cb : CircuitBreaker) (now : ℚ) :
    (cb.recordFailure now).total_requests = cb.total_requests + 1 ∧
    (cb.recordFailure now).total_failures = cb.total_failures + 1 ∧
    (cb.recordFailure now).total_successes = cb.total_successes := by
  rw [CircuitBreaker.recordFailure]
  split
  · simp
  · dsimp only
    split <;> simp

lemma gate_totals (cb cb' : CircuitBreaker) (now : ℚ)
    (h : cb.gate now = some cb') :
    cb'.total_requests = cb.total_requests ∧
    cb'.total_failures = cb.total_failures ∧
    cb'.total_successes = cb.total_successes := by
  rw [CircuitBreaker.gate] at h
  split at h
  · split at h
    · exact absurd h (by simp)
    · cases h; exact ⟨rfl, rfl, rfl⟩
  · cases h; exact ⟨rfl, rfl, rfl⟩

/-- C5 counterexample: a breaker opened by one failure (threshold 1);
the next call, rejected while `OPEN`, leaves `total_requests` (and the
other counters) unchanged — the claim would require it to become 2. -/
theorem call_counters_counterexample :
    ((CircuitBreaker.init "cb" ⟨1, 60, 3, 30⟩).call 0
        (OpOutcome.err (A := Unit) ⟨.underlying, "boom"⟩)).breaker.state
      = .opened ∧
    ((CircuitBreaker.init "cb" ⟨1, 60, 3, 30⟩).call 0
        (OpOutcome.err (A := Unit) ⟨.underlying, "boom"⟩)).breaker.total_requests
      = 1 ∧
    ((((CircuitBreaker.init "cb" ⟨1, 60, 3, 30⟩).call 0
        (OpOutcome.err (A := Unit) ⟨.underlying, "boom"⟩)).breaker.call 1
        (OpOutcome.ok (0 : Nat))).breaker).total_requests = 1 ∧
    ¬ ((((CircuitBreaker.init "cb" ⟨1, 60, 3, 30⟩).call 0
        (OpOutcome.err (A := Unit) ⟨.underlying, "boom"⟩)).breaker.call 1
        (OpOutcome.ok (0 : Nat))).breaker).total_requests =
      ((CircuitBreaker.init "cb" ⟨1, 60, 3, 30⟩).call 0
        (OpOutcome.err (A := Unit) ⟨.underlying, "boom"⟩)).breaker.total_requests
        + 1 := by
  have hrej := call_rejected
    ((CircuitBreaker.init "cb" ⟨1, 60, 3, 30⟩).call 0
      (OpOutcome.err (A := Unit) ⟨.underlying, "boom"⟩)).breaker 1
    (OpOutcome.ok (0 : Nat)) rfl
    (shouldAttemptReset_false _ 1 0 rfl rfl (show (1 : ℚ) - 0 < 60 by norm_num))
  refine ⟨rfl, rfl, ?_, ?_⟩
  · rw [hrej]
    rfl
  · rw [hrej]
    decide

/-- C5 amended: a `CircuitBreaker.call` that actually invokes the
operation increments `total_requests` by exactly 1 and exactly one of
`total_failures` or `total_successes` by 1; a call rejected while the
breaker is `OPEN` (operation not invoked) leaves the breaker — all
counters included — unchanged. -/
theorem call_counters (cb : CircuitBreaker) (now : ℚ) {A : Type}
    (op : OpOutcome A) :
    ((cb.call now op).invoked = true →
      (cb.call now op).breaker.total_requests = cb.total_requests + 1 ∧
      ((cb.call now op).breaker.total_failures = cb.total_failures + 1 ∧
        (cb.call now op).breaker.total_successes = cb.total_successes ∨
       (cb.call now op).breaker.total_successes = cb.total_successes + 1 ∧
        (cb.call now op).breaker.total_failures = cb.total_failures)) ∧
    ((cb.call now op).invoked = false → (cb.call now op).breaker = cb) := by
  rcases hg : cb.gate now with _ | cb'
  · constructor
    · intro h
      simp [CircuitBreaker.call, hg] at h
    · intro _
      simp [CircuitBreaker.call, hg]
  · obtain ⟨hr, hf, hs⟩ := gate_totals cb cb' now hg
    constructor
    · intro _
      cases op with
      | ok a =>
        have ht := recordSuccess_totals cb' now
        simp only [CircuitBreaker.call, hg]
        exact ⟨by rw [ht.1, hr], Or.inr ⟨by rw [ht.2.1, hs], by rw [ht.2.2, hf]⟩⟩
      | err e =>
        have ht := recordFailure_totals cb' now
        simp only [CircuitBreaker.call, hg]
        exact ⟨by rw [ht.1, hr], Or.inl ⟨by rw [ht.2.1, hf], by rw [ht.2.2, hs]⟩⟩
      | timeout =>
        have ht := recordFailure_totals cb' now
        simp only [CircuitBreaker.call, hg]
        exact ⟨by rw [ht.1, hr], Or.inl ⟨by rw [ht.2.1, hf], by rw [ht.2.2, hs]⟩⟩
    · intro h
      have := call_invoked_of_gate_some cb cb' now op hg
      rw [h] at this
      cases this

/-- Witness for C5 (amended): one successful call on a fresh breaker
brings `total_requests` from 0 to 1 and `total_successes` from 0 to 1. -/
theorem call_counters_witness :
    ((CircuitBreaker.init "x" ⟨5, 60, 3, 30⟩).call 0
        (OpOutcome.ok (0 : Nat))).breaker.total_requests =
      (CircuitBreaker.init "x" ⟨5, 60, 3, 30⟩).total_requests + 1 :=
  ((call_counters (CircuitBreaker.init "x" ⟨5, 60, 3, 30⟩) 0
      (OpOutcome.ok (0 : Nat))).1 rfl).1

/-- C3 counterexample: a Closed breaker whose operation raises an
`underlying` exception with message `"boom"`.  The caller does not
receive that error unchanged: it receives a `CircuitBreakerException`
(`circuitBreakerGeneric`) whose message embeds the original one. -/
theorem error_passthrough_counterexample :
    ((CircuitBreaker.init "cb" ⟨5, 60, 3, 30⟩).call 0
        (OpOutcome.err (A := Nat) ⟨.underlying, "boom"⟩)).result =
      .error ⟨.circuitBreakerGeneric, "Circuit breaker cb failure: boom"⟩ ∧
    ((CircuitBreaker.init "cb" ⟨5, 60, 3, 30⟩).call 0
        (OpOutcome.err (A := Nat) ⟨.underlying, "boom"⟩)).result ≠
      .error ⟨.underlying, "boom"⟩ := by
  decide

/-- C3 amended: when the operation fails with its own error and the
breaker is not `OPEN`, the caller receives a generic
`CircuitBreakerException` wrapping the original error's message — not
the original error object itself.  That wrapper kind is distinct from
the circuit-open and timeout rejection kinds, so resilience-layer
rejections remain distinguishable, but the underlying error survives
only as the message text embedded in the wrapper. -/
theorem error_wrapped (cb : CircuitBreaker) (now : ℚ) {A : Type}
    (e : Exc) (h : cb.state ≠ .opened) :
    (cb.call now (OpOutcome.err (A := A) e)).result =
      .error ⟨.circuitBreakerGeneric,
        "Circuit breaker " ++ cb.name ++ " failure: " ++ e.msg⟩ ∧
    ExcKind.circuitBreakerGeneric ≠ ExcKind.circuitBreakerOpen ∧
    ExcKind.circuitBreakerGeneric ≠ ExcKind.circuitBreakerTimeout := by
  refine ⟨?_, by decide, by decide⟩
  rw [call_err_not_opened cb now e h]

/-- Witness for C3 (amended): a fresh Closed breaker named `cb` and an
operation error with message `boom`. -/
theorem error_wrapped_witness :
    ((CircuitBreaker.init "cb" ⟨5, 60, 3, 30⟩).call 0
        (OpOutcome.err (A := Nat) ⟨.underlying, "boom"⟩)).result =
      .error ⟨.circuitBreakerGeneric,
        "Circuit breaker " ++ (CircuitBreaker.init "cb" ⟨5, 60, 3, 30⟩).name
          ++ " failure: " ++ "boom"⟩ ∧
    ExcKind.circuitBreakerGeneric ≠ ExcKind.circuitBreakerOpen ∧
    ExcKind.circuitBreakerGeneric ≠ ExcKind.circuitBreakerTimeout :=
  error_wrapped (CircuitBreaker.init "cb" ⟨5, 60, 3, 30⟩) 0
    ⟨.underlying, "boom"⟩ (by decide)

/-! ## Registry: claim C4 -/

/-- C4 counterexample: two `create_circuit_breaker` calls with the same
name but different configs.  The second call creates a second instance
(distinct from the first, as witnessed by its different config) and
replaces the registration, so the map is not an idempotent
get-or-create. -/
theorem registry_counterexample :
    ((ResilienceManager.init.create_circuit_breaker "x"
        ⟨5, 60, 3, 30⟩).2.create_circuit_breaker "x"
        ⟨7, 60, 3, 30⟩).2.get_circuit_breaker "x" =
      some (CircuitBreaker.init "x" ⟨7, 60, 3, 30⟩) ∧
    ((ResilienceManager.init.create_circuit_breaker "x"
        ⟨5, 60, 3, 30⟩).2.create_circuit_breaker "x"
        ⟨7, 60, 3, 30⟩).2.get_circuit_breaker "x" ≠
      some (ResilienceManager.init.create_circuit_breaker "x"
        ⟨5, 60, 3, 30⟩).1 ∧
    ((ResilienceManager.init.create_circuit_breaker "x"
        ⟨5, 60, 3, 30⟩).2.create_circuit_breaker "x" ⟨7, 60, 3, 30⟩).1 ≠
      (ResilienceManager.init.create_circuit_breaker "x" ⟨5, 60, 3, 30⟩).1 := by
  refine ⟨?_, ?_, ?_⟩ <;>
    simp [ResilienceManager.create_circuit_breaker,
      ResilienceManager.get_circuit_breaker, ResilienceManager.init,
      CircuitBreaker.init]

/-- C4 amended: each `create_*` call unconditionally constructs a fresh
instance from the supplied parameters and stores it under the name,
overwriting any existing registration (last-write-wins); `get_*` then
returns that most recently created instance.  The registries are not
idempotent get-or-create maps. -/
theorem registry_last_write_wins (m : ResilienceManager) (name : String)
    (cfg : CircuitBreakerConfig) (r : Nat) (w : ℚ) (mc : Nat) :
    (m.create_circuit_breaker name cfg).1 = CircuitBreaker.init name cfg ∧
    (m.create_circuit_breaker name cfg).2.get_circuit_breaker name =
      some (CircuitBreaker.init name cfg) ∧
    (m.create_rate_limiter name r w).1 = RateLimiter.init r w ∧
    (m.create_rate_limiter name r w).2.get_rate_limiter name =
      some (RateLimiter.init r w) ∧
    (m.create_bulkhead name mc).1 = Bulkhead.init name mc ∧
    (m.create_bulkhead name mc).2.get_bulkhead name =
      some (Bulkhead.init name mc) := by
  refine ⟨rfl, ?_, rfl, ?_, rfl, ?_⟩ <;>
    simp [ResilienceManager.create_circuit_breaker,
      ResilienceManager.get_circuit_breaker,
      ResilienceManager.create_rate_limiter,
      ResilienceManager.get_rate_limiter,
      ResilienceManager.create_bulkhead, ResilienceManager.get_bulkhead]

/-! ## Composed entry point: claim C1 -/

/-- C1 counterexample: a registered circuit breaker `cb` plus a retry
config with `max_attempts = 3`, and an operation that fails only on its
first invocation (so it fails fewer than `max_attempts` times).  The
claim requires the circuit-breaker-gated attempt to be re-invoked on
retry (hence ≥ 2 invocations and overall success); the code invokes the
operation exactly once through the breaker and surfaces the wrapped
failure. -/
theorem retry_wraps_breaker_counterexample :
    ((ResilienceManager.init.create_circuit_breaker "cb"
        ⟨5, 60, 3, 30⟩).2.execute_with_resilience
        (fun i => if i = 1 then .err ⟨.underlying, "boom"⟩
          else OpOutcome.ok (42 : Nat))
        "f" (some "cb") none (some { max_attempts := 3 }) 0).invocations
      = 1 ∧
    ((ResilienceManager.init.create_circuit_breaker "cb"
        ⟨5, 60, 3, 30⟩).2.execute_with_resilience
        (fun i => if i = 1 then .err ⟨.underlying, "boom"⟩
          else OpOutcome.ok (42 : Nat))
        "f" (some "cb") none (some { max_attempts := 3 }) 0).result
      = some (.error ⟨.circuitBreakerGeneric,
          "Circuit breaker cb failure: boom"⟩) := by
  constructor <;> rfl

/-- C1 amended: in the composed entry point, when a circuit breaker
name is supplied and registered, the retry config is ignored: the
circuit-breaker-gated attempt is made exactly once and its result is
surfaced unchanged, for any retry config.  (The retry loop — wrapping
the timeout-bounded operation, not the breaker — runs only when no
circuit breaker is configured or the name is not registered.) -/
theorem resilience_breaker_ignores_retry {A : Type}
    (m : ResilienceManager) (op : Nat → OpOutcome A)
    (fname nm : String) (timeout : Option ℚ) (rcfg : RetryConfig)
    (now : ℚ) (cb : CircuitBreaker)
    (hnm : nm ≠ "") (hcb : m.get_circuit_breaker nm = some cb) :
    (m.execute_with_resilience op fname (some nm) timeout
        (some rcfg) now).invocations = 1 ∧
    (m.execute_with_resilience op fname (some nm) timeout
        (some rcfg) now).result = some (cb.call now (op 1)).result := by
  rw [ResilienceManager.execute_with_resilience,
    ResilienceManager.execute_with_circuit_breaker_and_retry]
  simp [hnm, hcb]

/-- Witness for C1 (amended): the registered breaker `cb`, a retry
config with `max_attempts = 3`, and an always-failing operation. -/
theorem resilience_breaker_ignores_retry_witness :
    ((ResilienceManager.init.create_circuit_breaker "cb"
        ⟨5, 60, 3, 30⟩).2.execute_with_resilience
        (fun _ => OpOutcome.err (A := Nat) ⟨.underlying, "boom"⟩)
        "f" (some "cb") none (some { max_attempts := 3 }) 0 : ExecOutcome Nat).invocations
      = 1 ∧
    ((ResilienceManager.init.create_circuit_breaker "cb"
        ⟨5, 60, 3, 30⟩).2.execute_with_resilience
        (fun _ => OpOutcome.err (A := Nat) ⟨.underlying, "boom"⟩)
        "f" (some "cb") none (some { max_attempts := 3 }) 0 : ExecOutcome Nat).result
      = some ((CircuitBreaker.init "cb" ⟨5, 60, 3, 30⟩).call 0
          (OpOutcome.err ⟨.underlying, "boom"⟩)).result :=
  resilience_breaker_ignores_retry
    (ResilienceManager.init.create_circuit_breaker "cb" ⟨5, 60, 3, 30⟩).2
    (fun _ => OpOutcome.err (A := Nat) ⟨.underlying, "boom"⟩)
    "f" "cb" none { max_attempts := 3 } 0
    (CircuitBreaker.init "cb" ⟨5, 60, 3, 30⟩) (by decide) (by decide)

/-! ## Rate limiter: claim C8 -/

/-- The last call time of a nonempty sequence `t :: ts`. -/
def lastT (t : ℚ) : List ℚ → ℚ
  | [] => t
  | u :: us => lastT u us

lemma lastT_concat : ∀ (ts : List ℚ) (t now : ℚ),
    lastT t (ts ++ [now]) = now := by
  intro ts
  induction ts with
  | nil => intro t now; rfl
  | cons u us ih =>
    intro t now
    show lastT u (us ++ [now]) = now
    exact ih u now

lemma lastT_mem : ∀ (ts : List ℚ) (t : ℚ),
    lastT t ts = t ∨ lastT t ts ∈ ts := by
  intro ts
  induction ts with
  | nil => intro t; exact Or.inl rfl
  | cons u us ih =>
    intro t
    right
    show lastT u us ∈ u :: us
    rcases ih u with h | h
    · rw [h]; exact List.mem_cons_self u us
    · exact List.mem_cons_of_mem u h

lemma mem_le_lastT : ∀ (ts : List ℚ) (t : ℚ),
    (t :: ts).Pairwise (· ≤ ·) → ∀ x ∈ t :: ts, x ≤ lastT t ts := by
  intro ts
  induction ts with
  | nil =>
    intro t _ x hx
    rw [List.mem_singleton] at hx
    subst hx
    exact le_rfl
  | cons u us ih =>
    intro t h x hx
    rw [List.pairwise_cons] at h
    have hlast : lastT t (u :: us) = lastT u us := rfl
    rcases List.mem_cons.mp hx with rfl | hx'
    · rw [hlast]
      rcases lastT_mem us u with he | he
      · rw [he]; exact h.1 u (List.mem_cons_self u us)
      · exact h.1 _ (List.mem_cons_of_mem u he)
    · rw [hlast]
      exact ih u h.2 x hx'

lemma dropOld_eq_filter (now window : ℚ) :
    ∀ l : List ℚ, l.Pairwise (· ≤ ·) →
      dropOld now window l = l.filter (fun t => decide (now - window < t)) := by
  intro l
  induction l with
  | nil => intro _; rfl
  | cons t rest ih =>
    intro h
    rw [List.pairwise_cons] at h
    by_cases hc : t ≤ now - window
    · have hnot : ¬ (now - window < t) := not_lt.mpr hc
      simp [dropOld, hc, hnot, ih h.2]
    · have hlt : now - window < t := lt_of_not_le hc
      have hkeep : rest.filter (fun x => decide (now - window < x)) = rest :=
        List.filter_eq_self.mpr (fun x hx => by
          simpa using hlt.trans_le (h.1 x hx))
      simp [dropOld, hc, hlt, hkeep]

lemma dropOld_length_le (now window : ℚ) :
    ∀ l : List ℚ, (dropOld now window l).length ≤ l.length := by
  intro l
  induction l with
  | nil => exact le_rfl
  | cons t rest ih =>
    by_cases hc : t ≤ now - window
    · simp only [dropOld, if_pos hc]
      exact ih.trans (by simp)
    · simp [dropOld, hc]

lemma acquire_eq (rl : RateLimiter) (now : ℚ) :
    rl.acquire now =
      if (dropOld now rl.time_window rl.requests).length < rl.max_requests
      then (true,
        { rl with requests := dropOld now rl.time_window rl.requests ++ [now] })
      else (false,
        { rl with requests := dropOld now rl.time_window rl.requests }) := rfl

lemma acquire_preserves (rl : RateLimiter) (now : ℚ) :
    (rl.acquire now).2.max_requests = rl.max_requests ∧
    (rl.acquire now).2.time_window = rl.time_window := by
  rw [acquire_eq]
  split <;> exact ⟨rfl, rfl⟩

lemma acquire_fst (rl : RateLimiter) (now : ℚ) :
    (rl.acquire now).1 = true ↔
      (dropOld now rl.time_window rl.requests).length < rl.max_requests := by
  rw [acquire_eq]
  split
  · next h => simpa using h
  · next h => simpa using h

lemma acquire_true_length (rl : RateLimiter) (now : ℚ)
    (h : (rl.acquire now).1 = true) :
    (rl.acquire now).2.requests.length ≤ rl.max_requests := by
  by_cases hc :
      (dropOld now rl.time_window rl.requests).length < rl.max_requests
  · rw [acquire_eq, if_pos hc]
    simpa using hc
  · rw [acquire_eq, if_neg hc] at h
    cases h

lemma acquire_requests (rl : RateLimiter) (now : ℚ)
    (hW : 0 < rl.time_window) (hs : rl.requests.Pairwise (· ≤ ·)) :
    (rl.acquire now).2.requests =
      (rl.requests ++ if (rl.acquire now).1 then [now] else []).filter
        (fun t => decide (now - rl.time_window < t)) := by
  have hd := dropOld_eq_filter now rl.time_window rl.requests hs
  have hnow : now - rl.time_window < now := by linarith
  by_cases hc :
      (dropOld now rl.time_window rl.requests).length < rl.max_requests
  · rw [acquire_eq, if_pos hc]
    simp [hd, List.filter_append, hnow]
  · rw [acquire_eq, if_neg hc]
    simp [hd]

lemma acquire_sorted (rl : RateLimiter) (now : ℚ)
    (hs : rl.requests.Pairwise (· ≤ ·))
    (hub : ∀ x ∈ rl.requests, x ≤ now) :
    (rl.acquire now).2.requests.Pairwise (· ≤ ·) ∧
    ∀ x ∈ (rl.acquire now).2.requests, x ≤ now := by
  have hsub : ∀ x ∈ dropOld now rl.time_window rl.requests,
      x ∈ rl.requests := by
    intro x hx
    rw [dropOld_eq_filter now rl.time_window rl.requests hs] at hx
    exact List.mem_of_mem_filter hx
  have hds : (dropOld now rl.time_window rl.requests).Pairwise (· ≤ ·) := by
    rw [dropOld_eq_filter now rl.time_window rl.requests hs]
    exact hs.filter _
  by_cases hc :
      (dropOld now rl.time_window rl.requests).length < rl.max_requests
  · rw [acquire_eq, if_pos hc]
    constructor
    · refine List.pairwise_append.mpr ⟨hds, List.pairwise_singleton _ _, ?_⟩
      intro x hx y hy
      rw [List.mem_singleton] at hy
      subst hy
      exact hub x (hsub x hx)
    · intro x hx
      rcases List.mem_append.mp hx with h | h
      · exact hub x (hsub x h)
      · rw [List.mem_singleton] at h
        subst h
        exact le_rfl
  · rw [acquire_eq, if_neg hc]
    exact ⟨hds, fun x hx => hub x (hsub x hx)⟩

lemma runLimiter_cons (rl : RateLimiter) (t : ℚ) (ts : List ℚ) :
    runLimiter rl (t :: ts) = runLimiter (rl.acquire t).2 ts := rfl

lemma grantedTimes_nil (rl : RateLimiter) : grantedTimes rl [] = [] := rfl

lemma grantedTimes_cons (rl : RateLimiter) (t : ℚ) (ts : List ℚ) :
    grantedTimes rl (t :: ts) =
      (if (rl.acquire t).1 then [t] else [])
        ++ grantedTimes (rl.acquire t).2 ts := by
  by_cases h : (rl.acquire t).1 <;> simp [grantedTimes, h]

lemma runLimiter_append (l1 l2 : List ℚ) :
    ∀ rl, runLimiter rl (l1 ++ l2) = runLimiter (runLimiter rl l1) l2 := by
  induction l1 with
  | nil => intro rl; rfl
  | cons t ts ih =>
    intro rl
    rw [List.cons_append, runLimiter_cons, runLimiter_cons]
    exact ih (rl.acquire t).2

lemma runLimiter_preserves : ∀ (ts : List ℚ) (rl : RateLimiter),
    (runLimiter rl ts).max_requests = rl.max_requests ∧
    (runLimiter rl ts).time_window = rl.time_window := by
  intro ts
  induction ts with
  | nil => intro rl; exact ⟨rfl, rfl⟩
  | cons t ts ih =>
    intro rl
    have h := acquire_preserves rl t
    rw [runLimiter_cons]
    exact ⟨(ih _).1.trans h.1, (ih _).2.trans h.2⟩

lemma runLimiter_requests_eq :
    ∀ (ts : List ℚ) (t : ℚ) (rl : RateLimiter),
      0 < rl.time_window →
      rl.requests.Pairwise (· ≤ ·) →
      (∀ x ∈ rl.requests, x ≤ t) →
      (t :: ts).Pairwise (· ≤ ·) →
      (runLimiter rl (t :: ts)).requests =
        (rl.requests ++ grantedTimes rl (t :: ts)).filter
          (fun g => decide (lastT t ts - rl.time_window < g)) ∧
      (runLimiter rl (t :: ts)).requests.Pairwise (· ≤ ·) ∧
      (∀ x ∈ (runLimiter rl (t :: ts)).requests, x ≤ lastT t ts) := by
  intro ts
  induction ts with
  | nil =>
    intro t rl hW hs hub _
    have h1 : runLimiter rl [t] = (rl.acquire t).2 := rfl
    have h2 := acquire_requests rl t hW hs
    have h3 := acquire_sorted rl t hs hub
    refine ⟨?_, by rw [h1]; exact h3.1, by rw [h1]; exact h3.2⟩
    rw [h1, h2, grantedTimes_cons, grantedTimes_nil, List.append_nil]
    rfl
  | cons u us ih =>
    intro t rl hW hs hub hpair
    have hpc := List.pairwise_cons.mp hpair
    have hba := acquire_sorted rl t hs hub
    have hpres := acquire_preserves rl t
    have hub1 : ∀ x ∈ (rl.acquire t).2.requests, x ≤ u :=
      fun x hx => (hba.2 x hx).trans (hpc.1 u (List.mem_cons_self u us))
    have hW1 : 0 < (rl.acquire t).2.time_window := by
      rw [hpres.2]; exact hW
    obtain ⟨heq, hsorted, hbound⟩ :=
      ih u (rl.acquire t).2 hW1 hba.1 hub1 hpc.2
    have hlastT : lastT t (u :: us) = lastT u us := rfl
    have hrun : runLimiter rl (t :: u :: us)
        = runLimiter (rl.acquire t).2 (u :: us) := rfl
    have htle : t ≤ lastT u us := by
      rcases lastT_mem us u with he | he
      · rw [he]; exact hpc.1 u (List.mem_cons_self u us)
      · exact hpc.1 _ (List.mem_cons_of_mem u he)
    refine ⟨?_, by rw [hrun]; exact hsorted,
      by rw [hrun, hlastT]; exact hbound⟩
    have hff : ∀ l : List ℚ,
        (l.filter (fun g => decide (t - rl.time_window < g))).filter
          (fun g => decide (lastT u us - rl.time_window < g))
        = l.filter (fun g => decide (lastT u us - rl.time_window < g)) := by
      intro l
      rw [List.filter_filter]
      refine List.filter_congr ?_
      intro x _
      by_cases hx2 : lastT u us - rl.time_window < x
      · have hx1 : t - rl.time_window < x := by linarith
        simp [hx1, hx2]
      · simp [hx2]
    rw [hrun, hlastT, heq, hpres.2, acquire_requests rl t hW hs]
    simp only [grantedTimes_cons, List.filter_append, hff, List.append_assoc]

lemma granted_all : ∀ (ts : List ℚ) (rl : RateLimiter),
    rl.requests.length + ts.length ≤ rl.max_requests →
    grantedTimes rl ts = ts := by
  intro ts
  induction ts with
  | nil => intro rl _; rfl
  | cons t ts ih =>
    intro rl hlen
    have hdrop := dropOld_length_le t rl.time_window rl.requests
    have hc : (dropOld t rl.time_window rl.requests).length
        < rl.max_requests := by
      simp only [List.length_cons] at hlen
      omega
    have hacq : (rl.acquire t).1 = true := by
      rw [acquire_eq, if_pos hc]
    have hnext : (rl.acquire t).2.requests.length + ts.length
        ≤ (rl.acquire t).2.max_requests := by
      rw [acquire_eq, if_pos hc]
      simp only [List.length_append, List.length_singleton]
      simp only [List.length_cons] at hlen
      omega
    rw [grantedTimes_cons, hacq, if_pos rfl, ih (rl.acquire t).2 hnext]
    rfl

/-- C8: sliding-window bound of `RateLimiter` with `max_requests = R ≥ 1`
and `time_window = W > 0`, for call times issued in non-decreasing
order.  (i) After any `acquire` that returns true at time `now`, at most
`R` granted timestamps lie within the last `W` time units
`(now - W, now]` — the half-open reading under which a timestamp exactly
`W` old has just been evicted, matching the code's `<= now - window`
eviction.  (ii) `R` acquires from a fresh limiter all succeed.
(iii) The `(R+1)`-th acquire at a time `u` within `W` of the first
grant fails, and (iv) a subsequent acquire at a time `v` at least `W`
after the last grant succeeds. -/
theorem rate_limiter_sliding_window (R : Nat) (W : ℚ)
    (hR : 1 ≤ R) (hW : 0 < W) :
    (∀ (prev : List ℚ) (now : ℚ),
      (prev ++ [now]).Pairwise (· ≤ ·) →
      ((runLimiter (RateLimiter.init R W) prev).acquire now).1 = true →
      ((grantedTimes (RateLimiter.init R W) (prev ++ [now])).filter
          (fun g => decide (now - W < g))).length ≤ R) ∧
    (∀ ts : List ℚ, ts.length = R →
      grantedTimes (RateLimiter.init R W) ts = ts) ∧
    (∀ (t : ℚ) (ts : List ℚ) (u v : ℚ),
      (t :: ts).Pairwise (· ≤ ·) → (t :: ts).length = R →
      lastT t ts ≤ u → u - t < W → lastT t ts + W ≤ v →
      ((runLimiter (RateLimiter.init R W) (t :: ts)).acquire u).1 = false ∧
      ((((runLimiter (RateLimiter.init R W) (t :: ts)).acquire u).2).acquire
          v).1 = true) := by
  have hWin : (RateLimiter.init R W).time_window = W := rfl
  have hMax : (RateLimiter.init R W).max_requests = R := rfl
  have hReq : (RateLimiter.init R W).requests = [] := rfl
  have hAll : ∀ ts : List ℚ, ts.length ≤ R →
      grantedTimes (RateLimiter.init R W) ts = ts := by
    intro ts hts
    refine granted_all ts (RateLimiter.init R W) ?_
    rw [hReq, hMax]
    simpa using hts
  refine ⟨?_, fun ts hts => hAll ts (le_of_eq hts), ?_⟩
  · intro prev now hpair hacq
    have hrunfull : runLimiter (RateLimiter.init R W) (prev ++ [now])
        = ((runLimiter (RateLimiter.init R W) prev).acquire now).2 := by
      rw [runLimiter_append prev [now]]
      rfl
    have hlen := acquire_true_length
      (runLimiter (RateLimiter.init R W) prev) now hacq
    rw [(runLimiter_preserves prev (RateLimiter.init R W)).1, hMax] at hlen
    cases prev with
    | nil =>
      have hg : grantedTimes (RateLimiter.init R W) [now] = [now] :=
        hAll [now] (by simpa using hR)
      rw [List.nil_append, hg]
      have hkeep : now - W < now := by linarith
      simp [hkeep]
      omega
    | cons p rest =>
      have hfull : (p :: rest) ++ [now] = p :: (rest ++ [now]) := rfl
      rw [hfull] at hpair ⊢
      obtain ⟨heq, _, _⟩ := runLimiter_requests_eq (rest ++ [now]) p
        (RateLimiter.init R W) (by rw [hWin]; exact hW)
        (by rw [hReq]; exact List.Pairwise.nil)
        (by rw [hReq]; intro x hx; cases hx) hpair
      rw [hReq, List.nil_append, hWin, lastT_concat] at heq
      rw [← heq, ← hfull, hrunfull]
      exact hlen
  · intro t ts u v hpair hlen hle hu hv
    have hg : grantedTimes (RateLimiter.init R W) (t :: ts) = t :: ts :=
      hAll (t :: ts) (le_of_eq hlen)
    obtain ⟨heq, _, _⟩ := runLimiter_requests_eq ts t
      (RateLimiter.init R W) (by rw [hWin]; exact hW)
      (by rw [hReq]; exact List.Pairwise.nil)
      (by rw [hReq]; intro x hx; cases hx) hpair
    rw [hReq, List.nil_append, hWin, hg] at heq
    have hmemt : ∀ x ∈ t :: ts, t ≤ x := by
      intro x hx
      rcases List.mem_cons.mp hx with rfl | hx'
      · exact le_rfl
      · exact (List.pairwise_cons.mp hpair).1 x hx'
    have hmemlast : ∀ x ∈ t :: ts, x ≤ lastT t ts :=
      mem_le_lastT ts t hpair
    have hkeep : (t :: ts).filter
        (fun g => decide (lastT t ts - W < g)) = t :: ts := by
      refine List.filter_eq_self.mpr ?_
      intro x hx
      have h1 := hmemt x hx
      simp only [decide_eq_true_eq]
      linarith
    rw [hkeep] at heq
    have hfs := runLimiter_preserves (t :: ts) (RateLimiter.init R W)
    have hdropu : dropOld u
        (runLimiter (RateLimiter.init R W) (t :: ts)).time_window
        (runLimiter (RateLimiter.init R W) (t :: ts)).requests
        = t :: ts := by
      rw [heq, hfs.2, hWin,
        dropOld_eq_filter u W (t :: ts) hpair]
      refine List.filter_eq_self.mpr ?_
      intro x hx
      have h1 := hmemt x hx
      simp only [decide_eq_true_eq]
      linarith
    have hnlt : ¬ (dropOld u
        (runLimiter (RateLimiter.init R W) (t :: ts)).time_window
        (runLimiter (RateLimiter.init R W) (t :: ts)).requests).length
        < (runLimiter (RateLimiter.init R W) (t :: ts)).max_requests := by
      rw [hdropu, hlen, hfs.1, hMax]
      omega
    have hdropv : dropOld v W (t :: ts) = [] := by
      rw [dropOld_eq_filter v W (t :: ts) hpair]
      refine List.filter_eq_nil_iff.mpr ?_
      intro x hx
      have h1 := hmemlast x hx
      simp only [decide_eq_true_eq, not_lt]
      linarith
    have hstate : ((runLimiter (RateLimiter.init R W) (t :: ts)).acquire u).2
        = { runLimiter (RateLimiter.init R W) (t :: ts) with
            requests := dropOld u
              (runLimiter (RateLimiter.init R W) (t :: ts)).time_window
              (runLimiter (RateLimiter.init R W) (t :: ts)).requests } := by
      rw [acquire_eq, if_neg hnlt]
    constructor
    · rw [acquire_eq, if_neg hnlt]
    · rw [hstate, acquire_fst]
      show (dropOld v
          (runLimiter (RateLimiter.init R W) (t :: ts)).time_window
          (dropOld u
            (runLimiter (RateLimiter.init R W) (t :: ts)).time_window
            (runLimiter (RateLimiter.init R W) (t :: ts)).requests)).length
        < (runLimiter (RateLimiter.init R W) (t :: ts)).max_requests
      rw [hdropu, hfs.2, hWin, hdropv, hfs.1, hMax]
      simpa using hR

/-- Witness for C8: `R = 1`, `W = 10`; a grant at time 0, a failing
acquire at time 5, and a succeeding acquire at time 10. -/
theorem rate_limiter_sliding_window_witness :
    ((grantedTimes (RateLimiter.init 1 10) ([] ++ [(0 : ℚ)])).filter
        (fun g => decide ((0 : ℚ) - 10 < g))).length ≤ 1 ∧
    grantedTimes (RateLimiter.init 1 10) [(0 : ℚ)] = [(0 : ℚ)] ∧
    ((runLimiter (RateLimiter.init 1 10) [(0 : ℚ)]).acquire 5).1 = false ∧
    ((((runLimiter (RateLimiter.init 1 10) [(0 : ℚ)]).acquire 5).2).acquire
        10).1 = true := by
  have h := rate_limiter_sliding_window 1 10 (by norm_num) (by norm_num)
  have h3 := h.2.2 0 [] 5 10 (by simp) rfl (by norm_num [lastT])
    (by norm_num) (by norm_num [lastT])
  exact ⟨h.1 [] 0 (by simp) rfl, h.2.1 [0] rfl, h3.1, h3.2⟩

end Resilience
